import Mathlib

/-!
Shallow embedding of `tape/tasks/ContactMapTask.py` (TAPE contact-map task).

Tensors are modelled over `ℚ`; a `B × L` boolean tensor becomes a function
`ℕ → ℕ → Bool`, a `B × L × L` numeric tensor a function `ℕ → ℕ → ℕ → ℚ`.
The flattening `reshape (B, L, L) → (B, L·L)` is row-major: flat index
`p` corresponds to the pair `(p / L, p % L)`.
-/

namespace TapeContact

/-- The task object: `ContactMapTask.__init__` stores `min_residue_distance`. -/
structure ContactMapTask where
  min_residue_distance : ℤ

/-- `ContactMapTask.__init__` with its default argument `min_residue_distance=6`. -/
def ContactMapTask.init (min_residue_distance : ℤ := 6) : ContactMapTask :=
  { min_residue_distance := min_residue_distance }

/-- `ContactMapTask.get_mask`: pair `(i, j)` of example `b` is kept iff both
positions are valid and `|i - j| >= min_residue_distance`
(`valid_mask[:, :, None] & valid_mask[:, None, :]` combined with
`tf.greater_equal(distance, self._min_residue_distance)`). -/
def ContactMapTask.get_mask (task : ContactMapTask) (valid_mask : ℕ → ℕ → Bool)
    (b i j : ℕ) : Bool :=
  (valid_mask b i && valid_mask b j) &&
    decide (task.min_residue_distance ≤ (((i : ℤ) - (j : ℤ)).natAbs : ℤ))

/-- The fields of the `inputs` dict that `loss_function` and `get_mask` read,
together with the shape `(batch_size, seqlen)` of the label tensor. -/
structure Inputs where
  batch_size : ℕ
  seqlen : ℕ
  valid_mask : ℕ → ℕ → Bool
  protein_length : List ℕ
  contact_map : ℕ → ℕ → ℕ → ℚ

/-- The fields of the `outputs` dict that `loss_function` reads:
`contact_prob`, the `B × L × L` logit tensor (after `tf.squeeze(_, 3)`). -/
structure Outputs where
  contact_prob : ℕ → ℕ → ℕ → ℚ

/-- `seqlen * seqlen`, the length of the flattened pair axis after
`tf.reshape(_, (batch_size, seqlen * seqlen))`. -/
def numPairs (inputs : Inputs) : ℕ := inputs.seqlen * inputs.seqlen

/-- `mask = tf.cast(mask, pred.dtype)` on the flattened mask: weight 1 where
`get_mask` holds at the pair `(p / L, p % L)`, else 0. -/
def maskWeight (task : ContactMapTask) (inputs : Inputs) (b p : ℕ) : ℚ :=
  if task.get_mask inputs.valid_mask b (p / inputs.seqlen) (p % inputs.seqlen)
  then 1 else 0

/-- The flattened label tensor `label = tf.reshape(inputs['contact_map'], …)`. -/
def flatLabel (inputs : Inputs) (b p : ℕ) : ℚ :=
  inputs.contact_map b (p / inputs.seqlen) (p % inputs.seqlen)

/-- The flattened prediction tensor `pred = tf.reshape(tf.squeeze(…), …)`. -/
def flatPred (inputs : Inputs) (outputs : Outputs) (b p : ℕ) : ℚ :=
  outputs.contact_prob b (p / inputs.seqlen) (p % inputs.seqlen)

/-- `tf.losses.sigmoid_cross_entropy(label, pred, weights)` with its default
`Reduction.SUM_BY_NONZERO_WEIGHTS`: the weighted elementwise losses are
summed over the whole `B × P` tensor and divided by the number of elements
with nonzero weight (`_safe_mean`, which yields 0 when that count is 0 —
matching `ℚ` division by zero).  The elementwise cross-entropy
`tf.nn.sigmoid_cross_entropy_with_logits` is transcendental, so it is a
parameter `xent label logit`. -/
def sigmoid_cross_entropy (xent : ℚ → ℚ → ℚ) (B P : ℕ)
    (label pred w : ℕ → ℕ → ℚ) : ℚ :=
  (((List.range B).map (fun b =>
      ((List.range P).map (fun p => w b p * xent (label b p) (pred b p))).sum)).sum) /
    ((((List.range B).map (fun b =>
        ((List.range P).filter (fun p => decide (w b p ≠ 0))).length)).sum : ℕ) : ℚ)

/-- First maximum of a scored candidate list: returns the element with the
largest score, preferring the earlier one on ties — the tie-breaking rule of
`tf.nn.top_k` (lower index first). -/
def argmaxAux : List (ℕ × ℚ) → Option (ℕ × ℚ)
  | [] => none
  | x :: rest =>
    match argmaxAux rest with
    | none => some x
    | some y => if y.2 > x.2 then some y else some x

/-- Indices of the `k` largest scores (`tf.nn.top_k(scores, k).indices` for
one row), by repeated first-argmax extraction. -/
def selectTopK : ℕ → List (ℕ × ℚ) → List ℕ
  | 0, _ => []
  | k + 1, cands =>
    match argmaxAux cands with
    | none => []
    | some x => x.1 :: selectTopK k (cands.filter (fun c => c.1 != x.1))

/-- `max_prot_len = tf.reduce_max(inputs['protein_length'])`. -/
def max_prot_len (inputs : Inputs) : ℕ :=
  inputs.protein_length.foldr max 0

/-- One row of `pred - (1000 * (1 - mask))`, each score paired with its flat
pair index. -/
def scoreRow (task : ContactMapTask) (inputs : Inputs) (outputs : Outputs)
    (b : ℕ) : List (ℕ × ℚ) :=
  (List.range (numPairs inputs)).map
    (fun p => (p, flatPred inputs outputs b p - 1000 * (1 - maskWeight task inputs b p)))

/-- The indices selected for example `b` by
`tf.nn.top_k(pred - (1000 * (1 - mask)), max_prot_len // 5)`. -/
def ContactMapTask.topLOver5 (task : ContactMapTask) (inputs : Inputs)
    (outputs : Outputs) (b : ℕ) : List ℕ :=
  selectTopK (max_prot_len inputs / 5) (scoreRow task inputs outputs b)

/-- The `"ACC"` metric:
`tf.reduce_sum(l5_labels * l5_mask) / (tf.reduce_sum(l5_mask) + 1e-8)`,
where `l5_labels` and `l5_mask` gather `label` and `mask` at each example's
selected indices. -/
def ContactMapTask.accuracy (task : ContactMapTask) (inputs : Inputs)
    (outputs : Outputs) : ℚ :=
  (((List.range inputs.batch_size).map (fun b =>
      ((task.topLOver5 inputs outputs b).map
        (fun p => flatLabel inputs b p * maskWeight task inputs b p)).sum)).sum) /
    ((((List.range inputs.batch_size).map (fun b =>
        ((task.topLOver5 inputs outputs b).map
          (fun p => maskWeight task inputs b p)).sum)).sum) + 1 / 100000000)

/-- `ContactMapTask.loss_function`: returns the scalar loss and the value
stored under the `"ACC"` key of the metrics dict. -/
def ContactMapTask.loss_function (task : ContactMapTask) (xent : ℚ → ℚ → ℚ)
    (inputs : Inputs) (outputs : Outputs) : ℚ × ℚ :=
  (sigmoid_cross_entropy xent inputs.batch_size (numPairs inputs)
      (flatLabel inputs) (flatPred inputs outputs) (maskWeight task inputs),
   task.accuracy inputs outputs)

/-- A concrete all-valid `valid_mask`, used to instantiate theorems. -/
def vmEx : ℕ → ℕ → Bool := fun _ _ => true

/-- A concrete `valid_mask` that is false at position 2, for witnesses. -/
def vmPad : ℕ → ℕ → Bool := fun _ i => i != 2

/-- The batch of the C2 scenario: `protein_length = [10, 20]`, `L = 20`. -/
def inputsC2 : Inputs :=
  { batch_size := 2, seqlen := 20, valid_mask := vmEx,
    protein_length := [10, 20], contact_map := fun _ _ _ => 0 }

/-- Zero logits for the C2 scenario. -/
def outputsC2 : Outputs := { contact_prob := fun _ _ _ => 0 }

/-- C3 counterexample data: `min_residue_distance = 1`. -/
def taskC3 : ContactMapTask := ContactMapTask.init 1

/-- C3 counterexample batch: one example, `L = 2`, all positions valid,
`protein_length = [5]` so `k = 1`; both off-diagonal pairs are unmasked. -/
def inputsC3 : Inputs :=
  { batch_size := 1, seqlen := 2, valid_mask := vmEx,
    protein_length := [5], contact_map := fun _ _ _ => 0 }

/-- C3 counterexample logits: the masked diagonal pair `(0, 0)` has logit
2000, dwarfing the `-1000` penalty; all other logits are 0. -/
def outputsC3 : Outputs :=
  { contact_prob := fun _ i j => if i = 0 ∧ j = 0 then 2000 else 0 }

/-- The batch for the C4 witness: all labels are 1. -/
def inputsC4 : Inputs :=
  { batch_size := 1, seqlen := 2, valid_mask := vmEx,
    protein_length := [5], contact_map := fun _ _ _ => 1 }

/-- NumPy boolean-mask assignment `view[mask] = v`: the boolean index must
have exactly the length of the axis it indexes (NumPy ≥ 1.13), otherwise an
`IndexError` is raised, modelled as `none`. -/
def boolMaskAssign (view : List ℕ) (mask : List Bool) (v : ℕ) :
    Option (List ℕ) :=
  if mask.length = view.length then
    some (List.zipWith (fun x m => if m then v else x) view mask)
  else none

/-- The batch-size rescaling of `ContactMapTask.get_data`:
`np.asarray(np.sqrt(batch_sizes)/4, np.int32)` is `⌊√s⌋ / 4` (truncation of
a nonnegative float equals the floor, and `⌊√s/4⌋ = ⌊⌊√s⌋/4⌋`); then
`batch_sizes_array[batch_sizes_array <= 0] = 1`, then
`batch_sizes_array[:-1][bounds_array > 1000] = 0` (a length-`N` boolean mask
applied to a length-`N-1` slice), then `batch_sizes_array[-1] = 0` (an
`IndexError` on an empty array).  Errors are modelled as `none`. -/
def get_data_batch_sizes (bounds : List ℤ) (batch_sizes : List ℕ) :
    Option (List ℕ) :=
  let arr0 := batch_sizes.map (fun s => Nat.sqrt s / 4)
  let arr1 := arr0.map (fun v => if v ≤ 0 then 1 else v)
  let gtmask := bounds.map (fun bd => decide (1000 < bd))
  match boolMaskAssign arr1.dropLast gtmask 0 with
  | none => none
  | some front =>
    match arr1 with
    | [] => none
    | _ :: _ => some (front ++ [0])

/-- `ContactMapTask.get_train_files`, with the filesystem glob as an oracle
`glob pattern ↦ matching files`: raises `FileNotFoundError(pattern)`
(modelled as `Except.error pattern`) when nothing matches. -/
def ContactMapTask.get_train_files (glob : String → List String)
    (data_folder : String) : Except String (List String) :=
  let train_file_pattern :=
    data_folder ++ "/proteinnet/contact_map_train*.tfrecord"
  let train_files := glob train_file_pattern
  if train_files.length = 0 then Except.error train_file_pattern
  else Except.ok train_files

/-- `ContactMapTask.get_valid_files`, with `os.path.exists` as an oracle:
raises `FileNotFoundError(valid_file)` (modelled as `Except.error`) when the
single validation file does not exist, else returns `[valid_file]`. -/
def ContactMapTask.get_valid_files (pathExists : String → Bool)
    (data_folder : String) : Except String (List String) :=
  let valid_file := data_folder ++ "/proteinnet/contact_map_valid.tfrecord"
  if pathExists valid_file then Except.ok [valid_file]
  else Except.error valid_file

/-- A glob oracle finding one training shard, and an existing-path oracle,
for the C9 witness. -/
def globC9 : String → List String :=
  fun _ => ["data/proteinnet/contact_map_train0.tfrecord"]

/-- A glob oracle finding nothing, and its path oracle, for the C9 witness. -/
def globEmpty : String → List String := fun _ => []

/-- C6: `get_mask` is symmetric in the two pair indices: for every task with
`min_residue_distance ≥ 0`, every `valid_mask`, every example `b` and every
index pair `(i, j)`, `mask[b, i, j] = mask[b, j, i]`. -/
theorem get_mask_symm (task : ContactMapTask) (valid_mask : ℕ → ℕ → Bool)
    (b i j : ℕ) (hmin : 0 ≤ task.min_residue_distance) :
    task.get_mask valid_mask b i j = task.get_mask valid_mask b j i := by
  have hab : ((i : ℤ) - j).natAbs = ((j : ℤ) - i).natAbs := by omega
  simp only [ContactMapTask.get_mask, hab]
  rw [Bool.and_comm (valid_mask b i)]

/-- Witness for C6 at a concrete input. -/
theorem get_mask_symm_witness :
    (0 : ℤ) ≤ (ContactMapTask.init 6).min_residue_distance ∧
      (ContactMapTask.init 6).get_mask vmEx 0 2 9 =
        (ContactMapTask.init 6).get_mask vmEx 0 9 2 :=
  ⟨by decide, get_mask_symm (ContactMapTask.init 6) vmEx 0 2 9 (by decide)⟩

/-- C7: on the diagonal, if `min_residue_distance ≥ 1` the mask is false at
every `(b, i, i)`; if `min_residue_distance ≤ 0` the distance criterion admits
the diagonal, so `mask[b, i, i]` is true exactly when position `i` is valid. -/
theorem get_mask_diag (task : ContactMapTask) (valid_mask : ℕ → ℕ → Bool)
    (b i : ℕ) :
    (1 ≤ task.min_residue_distance →
      task.get_mask valid_mask b i i = false) ∧
    (task.min_residue_distance ≤ 0 →
      task.get_mask valid_mask b i i = valid_mask b i) := by
  constructor <;> intro h <;> simp [ContactMapTask.get_mask] <;> omega

/-- Witness for C7, discharging each hypothesis at a concrete task. -/
theorem get_mask_diag_witness :
    (ContactMapTask.init 6).get_mask vmEx 0 3 3 = false ∧
      (ContactMapTask.init 0).get_mask vmEx 0 3 3 = vmEx 0 3 :=
  ⟨(get_mask_diag (ContactMapTask.init 6) vmEx 0 3).1 (by decide),
   (get_mask_diag (ContactMapTask.init 0) vmEx 0 3).2 (by decide)⟩

/-- C8: padding exclusion: if `valid_mask` is false at position `i` of
example `b`, then every pair touching `i` is excluded from the mask,
whatever `min_residue_distance` is. -/
theorem get_mask_padding (task : ContactMapTask) (valid_mask : ℕ → ℕ → Bool)
    (b i : ℕ) (h : valid_mask b i = false) (j : ℕ) :
    task.get_mask valid_mask b i j = false ∧
      task.get_mask valid_mask b j i = false := by
  constructor <;> simp [ContactMapTask.get_mask, h]

/-- Witness for C8 at a concrete input. -/
theorem get_mask_padding_witness :
    vmPad 0 2 = false ∧
      (ContactMapTask.init 6).get_mask vmPad 0 2 5 = false ∧
      (ContactMapTask.init 6).get_mask vmPad 0 5 2 = false :=
  ⟨by decide, get_mask_padding (ContactMapTask.init 6) vmPad 0 2 (by decide) 5⟩

/-- C10: constructing the task without specifying `min_residue_distance`
uses the default 6, and consequently the default task's mask excludes every
pair with chain separation `|i - j| < 6`. -/
theorem default_min_residue_distance (valid_mask : ℕ → ℕ → Bool) (b i j : ℕ)
    (h : ((i : ℤ) - (j : ℤ)).natAbs < 6) :
    (ContactMapTask.init).min_residue_distance = 6 ∧
      (ContactMapTask.init).get_mask valid_mask b i j = false := by
  refine ⟨rfl, ?_⟩
  have h6 : decide ((ContactMapTask.init).min_residue_distance ≤
      (((i : ℤ) - (j : ℤ)).natAbs : ℤ)) = false := by
    rw [decide_eq_false_iff_not]
    simp only [ContactMapTask.init]
    omega
  simp only [ContactMapTask.get_mask, h6, Bool.and_false]

/-- Witness for C10 at a concrete close pair. -/
theorem default_min_residue_distance_witness :
    (((4 : ℤ) - (7 : ℤ)).natAbs < 6) ∧
      (ContactMapTask.init).get_mask vmEx 0 4 7 = false :=
  ⟨by decide, (default_min_residue_distance vmEx 0 4 7 (by decide)).2⟩

/-- For a 0/1-valued weight function, the number of positions with nonzero
weight equals the sum of the weights. -/
lemma count_nonzero_eq_sum (f : ℕ → ℚ) (l : List ℕ)
    (h : ∀ x ∈ l, f x = 0 ∨ f x = 1) :
    (((l.filter (fun x => decide (f x ≠ 0))).length : ℕ) : ℚ) = (l.map f).sum := by
  induction l with
  | nil => simp
  | cons a l ih =>
    have ha := h a (List.mem_cons_self a l)
    have ih' := ih (fun x hx => h x (List.mem_cons_of_mem a hx))
    rcases ha with h0 | h1
    · simpa [List.filter_cons, h0] using ih'
    · rw [List.filter_cons, if_pos (by simp [h1])]
      simp only [List.length_cons, List.map_cons, List.sum_cons, h1]
      rw [← ih']
      push_cast
      ring

/-- Row-summed version of `count_nonzero_eq_sum` over a list of examples. -/
lemma sum_count_nonzero_eq_sum (g : ℕ → ℕ → ℚ) (P : ℕ) (L : List ℕ)
    (h : ∀ b p, g b p = 0 ∨ g b p = 1) :
    ((((L.map (fun b =>
        ((List.range P).filter (fun p => decide (g b p ≠ 0))).length)).sum : ℕ)) : ℚ) =
      (L.map (fun b => ((List.range P).map (g b)).sum)).sum := by
  induction L with
  | nil => simp
  | cons a L ih =>
    simp only [List.map_cons, List.sum_cons, Nat.cast_add]
    rw [ih, count_nonzero_eq_sum (g a) (List.range P) (fun p _ => h a p)]

/-- C1: the loss returned by `loss_function` is the masked sigmoid
cross-entropy as a weighted mean: per-pair cross-entropy times the mask
weight, summed over the batch, divided by the total mask weight (weights in
the denominator), for every elementwise cross-entropy function `xent`.
Positions with mask weight 0 contribute the term `0 * xent … = 0`. -/
theorem loss_weighted_mean (task : ContactMapTask) (xent : ℚ → ℚ → ℚ)
    (inputs : Inputs) (outputs : Outputs) :
    (task.loss_function xent inputs outputs).1 =
      (((List.range inputs.batch_size).map (fun b =>
          ((List.range (numPairs inputs)).map (fun p =>
            maskWeight task inputs b p *
              xent (flatLabel inputs b p) (flatPred inputs outputs b p))).sum)).sum) /
        (((List.range inputs.batch_size).map (fun b =>
            ((List.range (numPairs inputs)).map
              (fun p => maskWeight task inputs b p)).sum)).sum) := by
  have hw : ∀ b p, maskWeight task inputs b p = 0 ∨ maskWeight task inputs b p = 1 := by
    intro b p
    unfold maskWeight
    split <;> simp
  simp only [ContactMapTask.loss_function, sigmoid_cross_entropy]
  rw [sum_count_nonzero_eq_sum (maskWeight task inputs) (numPairs inputs)
    (List.range inputs.batch_size) hw]

/-- `argmaxAux` returns `none` exactly on the empty list. -/
lemma argmaxAux_eq_none (l : List (ℕ × ℚ)) : argmaxAux l = none ↔ l = [] := by
  cases l with
  | nil => simp [argmaxAux]
  | cons a rest =>
    simp only [argmaxAux]
    constructor
    · intro h
      cases hrec : argmaxAux rest with
      | none =>
        simp only [hrec] at h
        exact Option.noConfusion h
      | some y =>
        simp only [hrec] at h
        by_cases hgt : y.2 > a.2
        · rw [if_pos hgt] at h
          exact Option.noConfusion h
        · rw [if_neg hgt] at h
          exact Option.noConfusion h
    · intro h
      cases h

/-- The element returned by `argmaxAux` belongs to the list. -/
lemma argmaxAux_mem (l : List (ℕ × ℚ)) (x : ℕ × ℚ) (h : argmaxAux l = some x) :
    x ∈ l := by
  induction l generalizing x with
  | nil => simp [argmaxAux] at h
  | cons a rest ih =>
    simp only [argmaxAux] at h
    cases hrec : argmaxAux rest with
    | none =>
      simp only [hrec, Option.some_inj] at h
      exact h ▸ List.mem_cons_self a rest
    | some y =>
      simp only [hrec] at h
      by_cases hgt : y.2 > a.2
      · rw [if_pos hgt, Option.some_inj] at h
        subst h
        exact List.mem_cons_of_mem a (ih _ hrec)
      · rw [if_neg hgt, Option.some_inj] at h
        subst h
        exact List.mem_cons_self a rest

/-- The element returned by `argmaxAux` has the maximal score. -/
lemma argmaxAux_le (l : List (ℕ × ℚ)) (x : ℕ × ℚ) (h : argmaxAux l = some x) :
    ∀ y ∈ l, y.2 ≤ x.2 := by
  induction l generalizing x with
  | nil => simp
  | cons a rest ih =>
    simp only [argmaxAux] at h
    intro u hu
    cases hrec : argmaxAux rest with
    | none =>
      simp only [hrec, Option.some_inj] at h
      subst h
      have hrest : rest = [] := (argmaxAux_eq_none rest).mp hrec
      subst hrest
      rcases List.mem_cons.mp hu with rfl | hmem
      · exact le_refl _
      · cases hmem
    | some z =>
      simp only [hrec] at h
      by_cases hgt : z.2 > a.2
      · rw [if_pos hgt, Option.some_inj] at h
        subst h
        rcases List.mem_cons.mp hu with rfl | hmem
        · exact le_of_lt hgt
        · exact ih _ hrec u hmem
      · rw [if_neg hgt, Option.some_inj] at h
        subst h
        rcases List.mem_cons.mp hu with rfl | hmem
        · exact le_refl _
        · exact le_trans (ih _ hrec u hmem) (not_lt.mp hgt)

/-- Removing the occurrence of a present index from an index-distinct
candidate list shortens it by exactly one. -/
lemma filter_ne_fst_length (l : List (ℕ × ℚ)) (x : ℕ × ℚ)
    (hnd : (l.map Prod.fst).Nodup) (hx : x ∈ l) :
    (l.filter (fun c => c.1 != x.1)).length = l.length - 1 := by
  induction l with
  | nil => cases hx
  | cons a rest ih =>
    simp only [List.map_cons, List.nodup_cons] at hnd
    rcases List.mem_cons.mp hx with rfl | hmem
    · rw [List.filter_cons, if_neg (by simp)]
      rw [List.filter_eq_self.mpr]
      · simp
      · intro c hc
        simp only [bne_iff_ne, ne_eq]
        intro hceq
        exact hnd.1 (hceq ▸ List.mem_map_of_mem Prod.fst hc)
    · have hax : a.1 ≠ x.1 := by
        intro he
        exact hnd.1 (he ▸ List.mem_map_of_mem Prod.fst hmem)
      rw [List.filter_cons, if_pos (by simp [hax])]
      simp only [List.length_cons]
      rw [ih hnd.2 hmem]
      have hpos : 1 ≤ rest.length := List.length_pos.mpr (List.ne_nil_of_mem hmem)
      omega

/-- Filtering preserves distinctness of candidate indices. -/
lemma nodup_fst_filter (l : List (ℕ × ℚ)) (q : ℕ × ℚ → Bool)
    (hnd : (l.map Prod.fst).Nodup) : ((l.filter q).map Prod.fst).Nodup :=
  hnd.sublist (List.Sublist.map Prod.fst (List.filter_sublist l))

/-- `selectTopK` returns exactly `k` indices whenever the candidate indices
are distinct and at least `k` candidates exist. -/
lemma selectTopK_length : ∀ (k : ℕ) (cands : List (ℕ × ℚ)),
    (cands.map Prod.fst).Nodup → k ≤ cands.length →
    (selectTopK k cands).length = k := by
  intro k
  induction k with
  | zero => intro cands _ _; rfl
  | succ k ih =>
    intro cands hnd hk
    have hne : cands ≠ [] := by
      intro he
      subst he
      simp at hk
    obtain ⟨x, hx⟩ : ∃ x, argmaxAux cands = some x := by
      cases hax : argmaxAux cands with
      | none => exact absurd ((argmaxAux_eq_none cands).mp hax) hne
      | some x => exact ⟨x, rfl⟩
    simp only [selectTopK, hx, List.length_cons]
    have hlen : k ≤ (cands.filter (fun c => c.1 != x.1)).length := by
      rw [filter_ne_fst_length cands x hnd (argmaxAux_mem cands x hx)]
      omega
    rw [ih _ (nodup_fst_filter _ _ hnd) hlen]

/-- C2: the number of pairs selected per example is
`(batch maximum of protein_length) / 5` — the batch-wide maximum, for every
example regardless of its own length — provided the flattened pair axis has
at least that many entries. -/
theorem topLOver5_count (task : ContactMapTask) (inputs : Inputs)
    (outputs : Outputs) (b : ℕ)
    (hk : max_prot_len inputs / 5 ≤ numPairs inputs) :
    (task.topLOver5 inputs outputs b).length = max_prot_len inputs / 5 := by
  unfold ContactMapTask.topLOver5
  apply selectTopK_length
  · unfold scoreRow
    rw [List.map_map]
    have hid : (Prod.fst ∘ fun p => ((p : ℕ),
        flatPred inputs outputs b p - 1000 * (1 - maskWeight task inputs b p))) = id := rfl
    rw [hid, List.map_id]
    exact List.nodup_range _
  · unfold scoreRow
    rw [List.length_map, List.length_range]
    exact hk

/-- Witness for C2: with `protein_length = [10, 20]`, exactly
`20 / 5 = 4` pairs are selected for each of the two examples. -/
theorem topLOver5_count_witness :
    max_prot_len inputsC2 / 5 ≤ numPairs inputsC2 ∧
      ((ContactMapTask.init 6).topLOver5 inputsC2 outputsC2 0).length = 4 ∧
      ((ContactMapTask.init 6).topLOver5 inputsC2 outputsC2 1).length = 4 :=
  ⟨by decide,
   (topLOver5_count (ContactMapTask.init 6) inputsC2 outputsC2 0 (by decide)).trans
     (by decide),
   (topLOver5_count (ContactMapTask.init 6) inputsC2 outputsC2 1 (by decide)).trans
     (by decide)⟩

/-- The pair indices of `scoreRow` are exactly `0, …, L·L - 1`. -/
lemma scoreRow_map_fst (task : ContactMapTask) (inputs : Inputs)
    (outputs : Outputs) (b : ℕ) :
    (scoreRow task inputs outputs b).map Prod.fst = List.range (numPairs inputs) := by
  unfold scoreRow
  rw [List.map_map]
  exact List.map_id' _

/-- The score stored for a member of `scoreRow` is
`pred - 1000 * (1 - mask)` at its index. -/
lemma scoreRow_mem (task : ContactMapTask) (inputs : Inputs) (outputs : Outputs)
    (b : ℕ) (u : ℕ × ℚ) (hu : u ∈ scoreRow task inputs outputs b) :
    u.2 = flatPred inputs outputs b u.1 -
      1000 * (1 - maskWeight task inputs b u.1) := by
  unfold scoreRow at hu
  rcases List.mem_map.mp hu with ⟨p, _, hpe⟩
  rw [← hpe]

/-- Filtering `scoreRow` on a property of the index keeps as many entries as
filtering the index range itself. -/
lemma scoreRow_filter_length (task : ContactMapTask) (inputs : Inputs)
    (outputs : Outputs) (b : ℕ) (good : ℕ → Bool) :
    ((scoreRow task inputs outputs b).filter (fun c => good c.1)).length =
      ((List.range (numPairs inputs)).filter good).length := by
  unfold scoreRow
  rw [List.filter_map, List.length_map]
  rfl

/-- Two filters over the same list commute. -/
lemma filter_swap (l : List (ℕ × ℚ)) (p q : ℕ × ℚ → Bool) :
    (l.filter p).filter q = (l.filter q).filter p := by
  simp only [List.filter_filter]
  congr 1
  funext a
  rw [Bool.and_comm]

/-- If the `good` candidates all score strictly above every other candidate
and at least `k` of them exist, `selectTopK` picks only `good` indices. -/
lemma selectTopK_good (good : ℕ → Bool) :
    ∀ (k : ℕ) (cands : List (ℕ × ℚ)),
      (cands.map Prod.fst).Nodup →
      (∀ x ∈ cands, ∀ y ∈ cands, good x.1 = true → good y.1 = false → y.2 < x.2) →
      k ≤ (cands.filter (fun c => good c.1)).length →
      ∀ i ∈ selectTopK k cands, good i = true := by
  intro k
  induction k with
  | zero =>
    intro cands _ _ _ i hi
    cases hi
  | succ k ih =>
    intro cands hnd hsep hk i hi
    have hgood_ne : cands.filter (fun c => good c.1) ≠ [] := by
      intro he
      rw [he] at hk
      simp at hk
    obtain ⟨g, hg⟩ : ∃ g, g ∈ cands.filter (fun c => good c.1) :=
      List.exists_mem_of_ne_nil _ hgood_ne
    have hgmem : g ∈ cands := (List.mem_filter.mp hg).1
    have hggood : good g.1 = true := (List.mem_filter.mp hg).2
    have hne : cands ≠ [] := List.ne_nil_of_mem hgmem
    obtain ⟨x, hx⟩ : ∃ x, argmaxAux cands = some x := by
      cases hax : argmaxAux cands with
      | none => exact absurd ((argmaxAux_eq_none cands).mp hax) hne
      | some x => exact ⟨x, rfl⟩
    have hxmem := argmaxAux_mem cands x hx
    have hxgood : good x.1 = true := by
      rcases Bool.eq_false_or_eq_true (good x.1) with hgx | hbad
      · exact hgx
      · have hlt : x.2 < g.2 := hsep g hgmem x hxmem hggood hbad
        have hle : g.2 ≤ x.2 := argmaxAux_le cands x hx g hgmem
        exact absurd hlt (not_lt.mpr hle)
    simp only [selectTopK, hx, List.mem_cons] at hi
    rcases hi with rfl | hi'
    · exact hxgood
    · refine ih (cands.filter (fun c => c.1 != x.1))
        (nodup_fst_filter _ _ hnd) ?_ ?_ i hi'
      · intro u hu v hv hug hvf
        exact hsep u (List.mem_of_mem_filter hu) v (List.mem_of_mem_filter hv) hug hvf
      · rw [filter_swap, filter_ne_fst_length (cands.filter (fun c => good c.1)) x
          (nodup_fst_filter _ _ hnd) (List.mem_filter.mpr ⟨hxmem, hxgood⟩)]
        omega

/-- Counterexample to C3 as stated: in this batch example 0 has two unmasked
pairs (at least `k = 1`), yet the selected index 0 is the masked diagonal
pair, because its logit exceeds the others by more than the 1000 penalty. -/
theorem topLOver5_selects_masked :
    taskC3.topLOver5 inputsC3 outputsC3 0 = [0] ∧
      taskC3.get_mask inputsC3.valid_mask 0 0 0 = false ∧
      max_prot_len inputsC3 / 5 ≤
        ((List.range (numPairs inputsC3)).filter
          (fun p => taskC3.get_mask inputsC3.valid_mask 0
            (p / inputsC3.seqlen) (p % inputsC3.seqlen))).length := by
  refine ⟨?_, by decide, by decide⟩
  have hsr : scoreRow taskC3 inputsC3 outputsC3 0 =
      [(0, 1000), (1, 0), (2, 0), (3, -1000)] := by
    norm_num [scoreRow, numPairs, inputsC3, taskC3, outputsC3, flatPred, maskWeight,
      ContactMapTask.get_mask, ContactMapTask.init, vmEx, List.range_succ]
  unfold ContactMapTask.topLOver5
  rw [hsr]
  have hk : max_prot_len inputsC3 / 5 = 1 := rfl
  rw [hk]
  norm_num [selectTopK, argmaxAux]

/-- C3 amended: the constant-subtraction trick `prediction − 1000·(1 − mask)`
guarantees that no masked pair is selected for an example with at least `k`
unmasked pairs, provided the predictions of that example differ pairwise by
less than the constant 1000. -/
theorem topLOver5_no_masked (task : ContactMapTask) (inputs : Inputs)
    (outputs : Outputs) (b : ℕ)
    (hspread : ∀ p q : ℕ,
      flatPred inputs outputs b p - flatPred inputs outputs b q < 1000)
    (hk : max_prot_len inputs / 5 ≤
      ((List.range (numPairs inputs)).filter
        (fun p => task.get_mask inputs.valid_mask b
          (p / inputs.seqlen) (p % inputs.seqlen))).length) :
    ∀ p ∈ task.topLOver5 inputs outputs b,
      task.get_mask inputs.valid_mask b
        (p / inputs.seqlen) (p % inputs.seqlen) = true := by
  intro p hp
  refine selectTopK_good
    (fun q => task.get_mask inputs.valid_mask b
      (q / inputs.seqlen) (q % inputs.seqlen))
    (max_prot_len inputs / 5) (scoreRow task inputs outputs b) ?_ ?_ ?_ p hp
  · rw [scoreRow_map_fst]
    exact List.nodup_range _
  · intro u hu v hv hug hvf
    have hug' : task.get_mask inputs.valid_mask b
        (u.1 / inputs.seqlen) (u.1 % inputs.seqlen) = true := hug
    have hvf' : task.get_mask inputs.valid_mask b
        (v.1 / inputs.seqlen) (v.1 % inputs.seqlen) = false := hvf
    have hus := scoreRow_mem task inputs outputs b u hu
    have hvs := scoreRow_mem task inputs outputs b v hv
    have hwu : maskWeight task inputs b u.1 = 1 := by
      simp only [maskWeight]
      rw [if_pos hug']
    have hwv : maskWeight task inputs b v.1 = 0 := by
      simp only [maskWeight]
      rw [if_neg]
      intro hc
      rw [hvf'] at hc
      exact Bool.false_ne_true hc
    rw [hus, hvs, hwu, hwv]
    have hsp := hspread v.1 u.1
    linarith
  · rw [scoreRow_filter_length task inputs outputs b
      (fun q => task.get_mask inputs.valid_mask b
        (q / inputs.seqlen) (q % inputs.seqlen))]
    exact hk

/-- Witness for the amended C3 at a concrete batch: with zero logits and
`k = 1 ≤ 2` unmasked pairs, every selected pair is unmasked. -/
theorem topLOver5_no_masked_witness :
    (∀ p q : ℕ, flatPred inputsC3 outputsC2 0 p - flatPred inputsC3 outputsC2 0 q < 1000) ∧
      max_prot_len inputsC3 / 5 ≤
        ((List.range (numPairs inputsC3)).filter
          (fun p => taskC3.get_mask inputsC3.valid_mask 0
            (p / inputsC3.seqlen) (p % inputsC3.seqlen))).length ∧
      ∀ p ∈ taskC3.topLOver5 inputsC3 outputsC2 0,
        taskC3.get_mask inputsC3.valid_mask 0
          (p / inputsC3.seqlen) (p % inputsC3.seqlen) = true :=
  ⟨fun p q => by norm_num [flatPred, outputsC2],
   by decide,
   topLOver5_no_masked taskC3 inputsC3 outputsC2 0
     (fun p q => by norm_num [flatPred, outputsC2]) (by decide)⟩

/-- A ratio `num / (den + 1e-8)` with `0 ≤ num ≤ den` lies in `[0, 1]` and
its denominator is positive. -/
lemma div_eps_bounds (num den : ℚ) (hnn : 0 ≤ num) (hle : num ≤ den) :
    0 ≤ num / (den + 1 / 100000000) ∧ num / (den + 1 / 100000000) ≤ 1 ∧
      0 < den + 1 / 100000000 := by
  have hden : 0 < den + 1 / 100000000 := by linarith
  refine ⟨div_nonneg hnn (le_of_lt hden), ?_, hden⟩
  rw [div_le_one hden]
  linarith

/-- C4: with binary (0/1) contact-map labels, the `"ACC"` value of
`loss_function` lies in `[0, 1]` and its denominator
`(sum of selected mask weights) + 1e-8` is strictly positive, so the
division is never by zero. -/
theorem accuracy_bounds (task : ContactMapTask) (inputs : Inputs)
    (outputs : Outputs)
    (hlab : ∀ b i j, inputs.contact_map b i j = 0 ∨ inputs.contact_map b i j = 1) :
    0 ≤ task.accuracy inputs outputs ∧ task.accuracy inputs outputs ≤ 1 ∧
      0 < (((List.range inputs.batch_size).map (fun b =>
        ((task.topLOver5 inputs outputs b).map
          (fun p => maskWeight task inputs b p)).sum)).sum) + 1 / 100000000 := by
  have hwnn : ∀ b p, 0 ≤ maskWeight task inputs b p := by
    intro b p
    unfold maskWeight
    split <;> norm_num
  have hlnn : ∀ b p, 0 ≤ flatLabel inputs b p := by
    intro b p
    unfold flatLabel
    rcases hlab b (p / inputs.seqlen) (p % inputs.seqlen) with h | h <;> rw [h] <;> norm_num
  have hl1 : ∀ b p, flatLabel inputs b p ≤ 1 := by
    intro b p
    unfold flatLabel
    rcases hlab b (p / inputs.seqlen) (p % inputs.seqlen) with h | h <;> rw [h] <;> norm_num
  have hnn : 0 ≤ ((List.range inputs.batch_size).map (fun b =>
      ((task.topLOver5 inputs outputs b).map
        (fun p => flatLabel inputs b p * maskWeight task inputs b p)).sum)).sum := by
    apply List.sum_nonneg
    intro s hs
    rcases List.mem_map.mp hs with ⟨b, _, rfl⟩
    apply List.sum_nonneg
    intro t ht
    rcases List.mem_map.mp ht with ⟨p, _, rfl⟩
    exact mul_nonneg (hlnn b p) (hwnn b p)
  have hle : ((List.range inputs.batch_size).map (fun b =>
      ((task.topLOver5 inputs outputs b).map
        (fun p => flatLabel inputs b p * maskWeight task inputs b p)).sum)).sum ≤
      ((List.range inputs.batch_size).map (fun b =>
        ((task.topLOver5 inputs outputs b).map
          (fun p => maskWeight task inputs b p)).sum)).sum := by
    apply List.sum_le_sum
    intro b _
    apply List.sum_le_sum
    intro p _
    calc flatLabel inputs b p * maskWeight task inputs b p
        ≤ 1 * maskWeight task inputs b p :=
          mul_le_mul_of_nonneg_right (hl1 b p) (hwnn b p)
      _ = maskWeight task inputs b p := one_mul _
  unfold ContactMapTask.accuracy
  exact div_eps_bounds _ _ hnn hle

/-- Witness for C4 at a concrete all-ones-label batch. -/
theorem accuracy_bounds_witness :
    (∀ b i j, inputsC4.contact_map b i j = 0 ∨ inputsC4.contact_map b i j = 1) ∧
      0 ≤ (ContactMapTask.init 6).accuracy inputsC4 outputsC2 ∧
      (ContactMapTask.init 6).accuracy inputsC4 outputsC2 ≤ 1 :=
  ⟨fun _ _ _ => Or.inr rfl,
   (accuracy_bounds (ContactMapTask.init 6) inputsC4 outputsC2
     (fun _ _ _ => Or.inr rfl)).1,
   (accuracy_bounds (ContactMapTask.init 6) inputsC4 outputsC2
     (fun _ _ _ => Or.inr rfl)).2.1⟩

/-- C5 scenario: the square-root scaling alone yields `[5, 2, 2]`, but the
rescaling as implemented raises (returns `none`) on
`length_boundaries = [500, 1500, 1e9]`, `nominal_batch_sizes = [400, 100, 64]`:
the length-3 boolean mask `bounds_array > 1000` cannot index the length-2
slice `batch_sizes_array[:-1]`. -/
theorem get_data_batch_sizes_scenario :
    ([400, 100, 64].map (fun s => Nat.sqrt s / 4) = [5, 2, 2]) ∧
      get_data_batch_sizes [500, 1500, 1000000000] [400, 100, 64] = none := by
  have h400 : Nat.sqrt 400 = 20 := by norm_num
  have h100 : Nat.sqrt 100 = 10 := by norm_num
  have h64 : Nat.sqrt 64 = 8 := by norm_num
  constructor
  · simp [h400, h100, h64]
  · simp [get_data_batch_sizes, boolMaskAssign, h400, h100, h64]

/-- C9: `get_train_files` errors naming the glob pattern exactly when no
file matches, otherwise returns the matches; `get_valid_files` errors naming
the expected path exactly when the file is absent, otherwise returns it. -/
theorem file_discovery_errors (glob : String → List String)
    (pathExists : String → Bool) (data_folder : String) :
    (glob (data_folder ++ "/proteinnet/contact_map_train*.tfrecord") = [] →
      ContactMapTask.get_train_files glob data_folder =
        Except.error (data_folder ++ "/proteinnet/contact_map_train*.tfrecord")) ∧
    (glob (data_folder ++ "/proteinnet/contact_map_train*.tfrecord") ≠ [] →
      ContactMapTask.get_train_files glob data_folder =
        Except.ok (glob (data_folder ++ "/proteinnet/contact_map_train*.tfrecord"))) ∧
    (pathExists (data_folder ++ "/proteinnet/contact_map_valid.tfrecord") = false →
      ContactMapTask.get_valid_files pathExists data_folder =
        Except.error (data_folder ++ "/proteinnet/contact_map_valid.tfrecord")) ∧
    (pathExists (data_folder ++ "/proteinnet/contact_map_valid.tfrecord") = true →
      ContactMapTask.get_valid_files pathExists data_folder =
        Except.ok [data_folder ++ "/proteinnet/contact_map_valid.tfrecord"]) := by
  refine ⟨?_, ?_, ?_, ?_⟩ <;> intro h
  · simp only [ContactMapTask.get_train_files, h]
    rfl
  · simp only [ContactMapTask.get_train_files]
    rw [if_neg (fun hlen => h (List.length_eq_zero.mp hlen))]
  · simp only [ContactMapTask.get_valid_files, h]
    rfl
  · simp only [ContactMapTask.get_valid_files, h]
    rfl

/-- Witness for C9, discharging all four hypotheses at concrete oracles. -/
theorem file_discovery_errors_witness :
    ContactMapTask.get_train_files globEmpty "data" =
        Except.error "data/proteinnet/contact_map_train*.tfrecord" ∧
      ContactMapTask.get_train_files globC9 "data" =
        Except.ok ["data/proteinnet/contact_map_train0.tfrecord"] ∧
      ContactMapTask.get_valid_files (fun _ => false) "data" =
        Except.error "data/proteinnet/contact_map_valid.tfrecord" ∧
      ContactMapTask.get_valid_files (fun _ => true) "data" =
        Except.ok ["data/proteinnet/contact_map_valid.tfrecord"] :=
  ⟨(file_discovery_errors globEmpty (fun _ => false) "data").1 rfl,
   (file_discovery_errors globC9 (fun _ => false) "data").2.1 (by simp [globC9]),
   (file_discovery_errors globEmpty (fun _ => false) "data").2.2.1 rfl,
   (file_discovery_errors globEmpty (fun _ => true) "data").2.2.2 rfl⟩

end TapeContact
